import Mathlib

/-!
Shallow embedding of the upload/processing/result lifecycle of the
pdf-xtractor repository.

Two implementations exist in the source:
* `docs/script.js` — the `BlockCellPDFExtractor` class (state fields
  `isProcessing`, `currentFile`, `extractedText`, plus the error banner);
* an unnamed second script (`src/unnamed/part_000`) — a simpler handler
  with a single `currentFile` variable and `setTimeout`-based extraction.

The embedding models the session-relevant effects of each handler;
DOM-only effects (animations, previews, scrolling) are outside the data
model. Asynchrony is modelled by an explicit `pending` slot holding the
file captured by the in-flight `processFile` body, and an event-step
function over traces of user/callback events.
-/

namespace PDFX

/-- File descriptor as the handlers see it: `name`, `size` (bytes) and
declared MIME `type`. -/
structure JSFile where
  name : String
  size : Nat
  type : String
deriving DecidableEq

/-- Session-relevant state of `BlockCellPDFExtractor`: the three data
fields of `this.state` (`dragCounter` is DOM-only) together with the
error banner content (`showError` / `hideError`). -/
structure Session where
  isProcessing : Bool
  currentFile : Option JSFile
  extractedText : String
  errorMessage : Option String
deriving DecidableEq

/-- World = session plus the file captured by the in-flight `processFile`
closure (`none` when no extraction attempt is running). -/
structure World where
  session : Session
  pending : Option JSFile
deriving DecidableEq

/-- Configuration `maxFileSize: 10 * 1024 * 1024` from `script.js`. -/
def maxFileSize : Nat := 10 * 1024 * 1024

/-- Configuration `allowedTypes: ['application/pdf']` from `script.js`. -/
def allowedTypes : List String := ["application/pdf"]

/-- Fuel-driven floor logarithm: `logFloorAux b fuel n` computes the
floor of the base-`b` logarithm of `n` provided `fuel ≥ n`. -/
def logFloorAux (b : Nat) : Nat → Nat → Nat
  | 0, _ => 0
  | fuel + 1, n => if n < b then 0 else logFloorAux b fuel (n / b) + 1

/-- Floor of the base-`b` logarithm, modelling the exact value of
`Math.floor(Math.log(bytes) / Math.log(k))` in `formatFileSize`. -/
def logFloor (b n : Nat) : Nat := logFloorAux b n n

/-- Model of `formatFileSize(bytes)`: unit index `i` is the floor
base-1024 logarithm; the quotient is rounded to two decimals (the
`toFixed(2)` step, modelled in exact arithmetic) and trailing zeros are
dropped (the `parseFloat` step). -/
def formatFileSize (bytes : Nat) : String :=
  if bytes = 0 then "0 Bytes"
  else
    let i := logFloor 1024 bytes
    let p := 1024 ^ i
    let centi := (bytes * 100 + p / 2) / p
    let num :=
      if centi % 100 = 0 then toString (centi / 100)
      else if centi % 10 = 0 then
        toString (centi / 100) ++ "." ++ toString ((centi % 100) / 10)
      else
        toString (centi / 100) ++ "." ++
          (if centi % 100 < 10 then "0" else "") ++ toString (centi % 100)
    num ++ " " ++ (["Bytes", "KB", "MB", "GB"].getD i "")

/-- Model of `validateFile(file)`: `none` for a valid file, `some msg`
for the rejection message. The type check runs before the size check. -/
def validateFile (f : JSFile) : Option String :=
  if allowedTypes.contains f.type = false then
    some "Please select a PDF file only."
  else if f.size > maxFileSize then
    some ("File size must be less than " ++ formatFileSize maxFileSize ++ ".")
  else none

/-- Model of `showError(message)`. -/
def showError (msg : String) (s : Session) : Session :=
  { s with errorMessage := some msg }

/-- Model of `hideError()`. -/
def hideError (s : Session) : Session :=
  { s with errorMessage := none }

/-- Model of `clearFile()`: clears the stored file and extracted text and
hides the error banner; `isProcessing` is not touched. -/
def clearFile (s : Session) : Session :=
  { s with currentFile := none, extractedText := "", errorMessage := none }

/-- Synchronous head of `processFile(file)`: the re-entrancy guard
`if (this.state.isProcessing) return;` followed by
`this.state.isProcessing = true` and capture of `file` by the running
async body (recorded in `pending`). -/
def processFile (f : JSFile) (w : World) : World :=
  if w.session.isProcessing then w
  else { session := { w.session with isProcessing := true }, pending := some f }

/-- Model of `handleFileSelection(file)`: on invalid input shows the
validation message and returns; on valid input hides the error, stores
the file and invokes `processFile`. -/
def handleFileSelection (f : JSFile) (w : World) : World :=
  match validateFile f with
  | some msg => { w with session := showError msg w.session }
  | none =>
      processFile f
        { w with session :=
            { w.session with errorMessage := none, currentFile := some f } }

/-- Model of `generateMockExtractedText(fileName)`; the
`new Date().toLocaleString()` timestamp is an explicit argument. -/
def generateMockExtractedText (fileName ts : String) : String :=
  "# Extracted Text from " ++ fileName ++
  "\n\nThis is a sample of extracted text content from your PDF file. In a real implementation, this would contain the actual text extracted from the PDF document.\n\n## Document Summary\n- File processed successfully\n- Text extraction completed\n- Ready for download or copying\n\n## Sample Content\nLorem ipsum dolor sit amet, consectetur adipiscing elit. Sed do eiusmod tempor incididunt ut labore et dolore magna aliqua. Ut enim ad minim veniam, quis nostrud exercitation ullamco laboris.\n\n### Key Features Extracted:\n1. Headers and subheaders\n2. Paragraph text\n3. Lists and bullet points\n4. Special formatting\n\nThis extracted content maintains the structure and formatting of the original document while providing clean, searchable text output.\n\n---\n*Extraction completed at " ++ ts ++ "*"

/-- Success continuation of `processFile`: stores the mock text generated
from the captured file (not from `currentFile`) and runs the `finally`
block `isProcessing = false`. -/
def processFileSuccess (f : JSFile) (ts : String) (s : Session) : Session :=
  { s with extractedText := generateMockExtractedText f.name ts,
           isProcessing := false }

/-- Failure continuation of `processFile` (the `catch` branch): shows the
processing error and runs the `finally` block. -/
def processFileFailure (s : Session) : Session :=
  { s with
    errorMessage := some "An error occurred while processing the PDF. Please try again."
    isProcessing := false }

/-- Model of `handleEscapeKey()`: always hides the error, then clears the
file only when not processing and a file is stored. -/
def handleEscapeKey (s : Session) : Session :=
  let s1 := hideError s
  if s1.isProcessing = false ∧ s1.currentFile.isSome = true then clearFile s1
  else s1

/-- External events driving the lifecycle: a file selection, the clear
button, success/failure settlement of the in-flight attempt, and the
escape key. -/
inductive Event where
  | select (f : JSFile)
  | clear
  | complete (ts : String)
  | fail
  | escape
deriving DecidableEq

/-- One step of the lifecycle. Settlement events apply only when an
attempt is in flight and consume it. -/
def step (w : World) : Event → World
  | .select f => handleFileSelection f w
  | .clear => { w with session := clearFile w.session }
  | .complete ts =>
      match w.pending with
      | some f => { session := processFileSuccess f ts w.session, pending := none }
      | none => w
  | .fail =>
      match w.pending with
      | some _ => { session := processFileFailure w.session, pending := none }
      | none => w
  | .escape => { w with session := handleEscapeKey w.session }

/-- Initial world: the constructor state of `init()`. -/
def initWorld : World :=
  { session := { isProcessing := false, currentFile := none,
                 extractedText := "", errorMessage := none },
    pending := none }

/-- World reached by running a trace of events from the initial world. -/
def reach (es : List Event) : World := es.foldl step initWorld

/-- Abstract lifecycle states of the specification. -/
inductive UIState where
  | Idle
  | FileSelected
  | Processing
  | Result
  | Error
deriving DecidableEq

/-- Classification of a concrete session into the abstract state machine
of the specification: Processing while `isProcessing` holds, otherwise
Error / Result / FileSelected by the populated fields, else Idle. -/
def stateOf (s : Session) : UIState :=
  if s.isProcessing = true then .Processing
  else if s.errorMessage.isSome = true then .Error
  else if s.extractedText = "" then
    (if s.currentFile.isSome = true then .FileSelected else .Idle)
  else .Result

/-- Predicate on traces: no success settlement occurs in the trace. -/
def noComplete (es : List Event) : Bool :=
  es.all fun e => match e with | .complete _ => false | _ => true

/-- First-occurrence replacement on character lists, the semantics of
the JavaScript `String.prototype.replace` with a string pattern: scan
left to right, splice the replacement at the first match, leave the
list unchanged when the pattern never occurs. -/
def replaceFirstList (pat repl : List Char) : List Char → List Char
  | [] => []
  | c :: rest =>
      if pat.isPrefixOf (c :: rest) then repl ++ (c :: rest).drop pat.length
      else c :: replaceFirstList pat repl rest

/-- String wrapper for `replaceFirstList`, modelling
`s.replace(pat, repl)` with a string pattern. -/
def jsReplaceFirst (s pat repl : String) : String :=
  String.mk (replaceFirstList pat.data repl.data s.data)

/-- Occurrence test matching the recursion of `replaceFirstList`: does
`pat` occur as a contiguous sublist of `s`? -/
def occursInList (pat : List Char) : List Char → Bool
  | [] => pat.isPrefixOf ([] : List Char)
  | c :: rest => pat.isPrefixOf (c :: rest) || occursInList pat rest

/-- Download filename of `downloadText()` in `script.js`:
`name.replace('.pdf', '') + '_extracted.txt'`. -/
def downloadName (name : String) : String :=
  jsReplaceFirst name ".pdf" "" ++ "_extracted.txt"

/-- UTF-8 encoding of one character (code point to byte list). -/
def utf8EncodeChar (c : Char) : List Nat :=
  let n := c.toNat
  if n < 128 then [n]
  else if n < 2048 then [192 + n / 64, 128 + n % 64]
  else if n < 65536 then [224 + n / 4096, 128 + (n / 64) % 64, 128 + n % 64]
  else [240 + n / 262144, 128 + (n / 4096) % 64, 128 + (n / 64) % 64, 128 + n % 64]

/-- UTF-8 byte sequence of a string: the bytes of the `Blob` built by
`downloadText` from the extracted text. -/
def utf8Encode (s : String) : List Nat := s.data.flatMap utf8EncodeChar

/-- Fuel-driven UTF-8 decoder (fuel bounds the number of decoded
characters; continuation bytes must lie in `[128, 192)`). -/
def utf8DecodeAux : Nat → List Nat → List Char → Option (List Char)
  | _, [], acc => some acc.reverse
  | 0, _ :: _, _ => none
  | fuel + 1, b :: rest, acc =>
      if b < 128 then utf8DecodeAux fuel rest (Char.ofNat b :: acc)
      else if b < 192 then none
      else if b < 224 then
        match rest with
        | b1 :: rest1 =>
            if 128 ≤ b1 ∧ b1 < 192 then
              utf8DecodeAux fuel rest1 (Char.ofNat ((b - 192) * 64 + (b1 - 128)) :: acc)
            else none
        | [] => none
      else if b < 240 then
        match rest with
        | b1 :: b2 :: rest2 =>
            if 128 ≤ b1 ∧ b1 < 192 ∧ 128 ≤ b2 ∧ b2 < 192 then
              utf8DecodeAux fuel rest2
                (Char.ofNat ((b - 224) * 4096 + (b1 - 128) * 64 + (b2 - 128)) :: acc)
            else none
        | _ => none
      else
        match rest with
        | b1 :: b2 :: b3 :: rest3 =>
            if 128 ≤ b1 ∧ b1 < 192 ∧ 128 ≤ b2 ∧ b2 < 192 ∧ 128 ≤ b3 ∧ b3 < 192 then
              utf8DecodeAux fuel rest3
                (Char.ofNat ((b - 240) * 262144 + (b1 - 128) * 4096 +
                  (b2 - 128) * 64 + (b3 - 128)) :: acc)
            else none
        | _ => none

/-- UTF-8 decoding of a byte list back to a string. -/
def utf8Decode (bs : List Nat) : Option String :=
  (utf8DecodeAux bs.length bs []).map String.mk

/-- Data outcome of `downloadText()`: `none` when the guard
`if (!this.state.extractedText || !this.state.currentFile) return;`
fires, otherwise the suggested filename and the blob bytes. -/
def downloadText (s : Session) : Option (String × List Nat) :=
  if s.extractedText = "" then none
  else
    match s.currentFile with
    | none => none
    | some f => some (downloadName f.name, utf8Encode s.extractedText)

/-- State of the simple implementation (`src/unnamed/part_000`): the
`currentFile` variable plus the number of extraction timeouts currently
scheduled by `extractPDF`. -/
structure SimpleState where
  currentFile : Option JSFile
  pendingExtractions : Nat
deriving DecidableEq

/-- Model of `handleFileSelect(file)` in the simple implementation:
alert-and-return on a non-PDF type or a size above 50 MiB, otherwise
store the file. -/
def handleFileSelect (f : JSFile) (s : SimpleState) : SimpleState :=
  if (f.type = "application/pdf") = false then s
  else if f.size > 50 * 1024 * 1024 then s
  else { s with currentFile := some f }

/-- Model of the extract-button click: alert-and-return when no file is
stored, otherwise `extractPDF()` schedules one more extraction timeout
(there is no re-entrancy guard). -/
def extractPDF (s : SimpleState) : SimpleState :=
  match s.currentFile with
  | none => s
  | some _ => { s with pendingExtractions := s.pendingExtractions + 1 }

/-- Download filename of `window.downloadText` / `window.downloadExcel`
in the simple implementation:
`currentFile.name.replace('.pdf', '_extracted.txt')`. -/
def simpleDownloadName (name : String) : String :=
  jsReplaceFirst name ".pdf" "_extracted.txt"

/-- Sample valid PDF files used in concrete traces. -/
def fA : JSFile := { name := "a.pdf", size := 1000, type := "application/pdf" }

/-- Second sample valid PDF file, distinct from `fA`. -/
def fB : JSFile := { name := "b.pdf", size := 2000, type := "application/pdf" }

/-- Shape invariant on the extracted text: it is either empty or the mock
text generated for some file name and timestamp. -/
def TextShape (s : Session) : Prop :=
  s.extractedText = "" ∨
    ∃ (f : JSFile) (ts : String),
      s.extractedText = generateMockExtractedText f.name ts

theorem step_extractedText_empty (w : World) (e : Event)
    (hne : ∀ ts, e ≠ .complete ts)
    (h : w.session.extractedText = "") :
    (step w e).session.extractedText = "" := by
  cases e with
  | select f =>
      cases hv : validateFile f with
      | some msg => simp [step, handleFileSelection, hv, showError, h]
      | none =>
          simp only [step, handleFileSelection, hv, processFile]
          split <;> simp [h]
  | clear => simp [step, clearFile]
  | complete ts => exact absurd rfl (hne ts)
  | fail => cases hp : w.pending <;> simp [step, hp, processFileFailure, h]
  | escape =>
      simp only [step, handleEscapeKey, hideError]
      split <;> simp [clearFile, h]

theorem foldl_extractedText_empty (es : List Event) :
    ∀ w : World, noComplete es = true → w.session.extractedText = "" →
      (es.foldl step w).session.extractedText = "" := by
  induction es with
  | nil => intro w _ h; exact h
  | cons e rest ih =>
      intro w hnc h
      rw [noComplete, List.all_cons, Bool.and_eq_true] at hnc
      refine ih (step w e) hnc.2 (step_extractedText_empty w e ?_ h)
      intro ts hts
      subst hts
      simp at hnc

theorem step_textShape (w : World) (e : Event) (h : TextShape w.session) :
    TextShape (step w e).session := by
  cases e with
  | select f =>
      cases hv : validateFile f with
      | some msg => simpa [step, handleFileSelection, hv, showError, TextShape] using h
      | none =>
          simp only [step, handleFileSelection, hv, processFile]
          split <;> simpa [TextShape] using h
  | clear => simp [step, clearFile, TextShape]
  | complete ts =>
      cases hp : w.pending with
      | none => simpa [step, hp] using h
      | some f =>
          exact Or.inr ⟨f, ts, by simp [step, hp, processFileSuccess]⟩
  | fail => cases hp : w.pending <;> simpa [step, hp, processFileFailure, TextShape] using h
  | escape =>
      simp only [step, handleEscapeKey, hideError]
      split
      · simp [clearFile, TextShape]
      · simpa [TextShape] using h

theorem reach_textShape (es : List Event) : TextShape (reach es).session := by
  rw [reach]
  have hgen : ∀ w : World, TextShape w.session →
      TextShape (es.foldl step w).session := by
    induction es with
    | nil => intro w h; exact h
    | cons e rest ih => intro w h; exact ih (step w e) (step_textShape w e h)
  exact hgen initWorld (Or.inl rfl)

theorem replaceFirstList_not_occurs (pat repl : List Char) :
    ∀ s : List Char, occursInList pat s = false →
      replaceFirstList pat repl s = s := by
  intro s
  induction s with
  | nil => intro _; rfl
  | cons c rest ih =>
      intro h
      rw [occursInList, Bool.or_eq_false_iff] at h
      rw [replaceFirstList, if_neg (by simp [h.1]), ih h.2]

theorem replaceFirstList_at_first (pat repl q : List Char) (hpat : pat ≠ []) :
    ∀ p : List Char,
      (∀ i, i < p.length → pat.isPrefixOf ((p ++ pat ++ q).drop i) = false) →
      replaceFirstList pat repl (p ++ pat ++ q) = p ++ repl ++ q := by
  intro p
  induction p with
  | nil =>
      intro _
      cases pat with
      | nil => exact absurd rfl hpat
      | cons pc pat1 =>
          have hpre : (pc :: pat1).isPrefixOf ((pc :: pat1) ++ q) = true :=
            List.isPrefixOf_iff_prefix.mpr (List.prefix_append _ _)
          simp only [List.nil_append, List.cons_append] at hpre ⊢
          rw [replaceFirstList, if_pos hpre]
          have : ((pc :: pat1) ++ q).drop (pc :: pat1).length = q :=
            List.drop_left _ _
          simp only [List.cons_append] at this
          rw [this]
  | cons c p1 ih =>
      intro h
      have h0 : pat.isPrefixOf (((c :: p1) ++ pat ++ q).drop 0) = false :=
        h 0 (Nat.succ_pos _)
      simp only [List.drop_zero] at h0
      simp only [List.cons_append] at h0 ⊢
      have h0' : ¬ pat.isPrefixOf (c :: (p1 ++ pat ++ q)) = true := by
        rw [h0]; exact Bool.false_ne_true
      rw [replaceFirstList, if_neg h0']
      rw [ih]
      intro i hi
      have := h (i + 1) (Nat.succ_lt_succ hi)
      simpa [List.drop_succ_cons] using this

/-- C1: a stale completion callback after `clearFile` is NOT discarded.
Running select(a.pdf), clearFile, then the settlement of the still
in-flight attempt leaves the session with the mock extracted text stored
and the result shown, although the session had been reset: the code has
no sequence-number check, contradicting the claimed ordering guarantee. -/
theorem c1_stale_completion_mutates_cleared_session :
    (reach [.select fA, .clear]).session.currentFile = none ∧
    (reach [.select fA, .clear]).session.extractedText = "" ∧
    (reach [.select fA, .clear, .complete "TS"]).session.extractedText =
      generateMockExtractedText "a.pdf" "TS" ∧
    (reach [.select fA, .clear, .complete "TS"]).session.extractedText ≠ "" ∧
    stateOf (reach [.select fA, .clear, .complete "TS"]).session = .Result :=
  ⟨rfl, rfl, rfl, by decide, by decide⟩

/-- C2 counterexample: while the session is Processing the file selected
first, submitting a second valid candidate is not rejected unchanged —
`handleFileSelection` overwrites the stored file before `processFile`'s
re-entrancy guard fires. -/
theorem c2_selection_during_processing_changes_file :
    (reach [.select fA]).session.isProcessing = true ∧
    (reach [.select fA]).session.currentFile = some fA ∧
    (reach [.select fA, .select fB]).session.currentFile = some fB ∧
    some fB ≠ some fA := by decide

/-- C2 (amended): while Processing, a new selection never starts a second
extraction attempt (`pending` and `isProcessing` are unchanged and the
extracted text is untouched); an invalid candidate leaves the stored file
unchanged, but a valid candidate overwrites it. -/
theorem c2_processing_selection_no_new_attempt (w : World) (f : JSFile)
    (h : w.session.isProcessing = true) :
    (step w (.select f)).pending = w.pending ∧
    (step w (.select f)).session.isProcessing = true ∧
    (step w (.select f)).session.extractedText = w.session.extractedText ∧
    ((validateFile f).isSome = true →
      (step w (.select f)).session.currentFile = w.session.currentFile) ∧
    (validateFile f = none →
      (step w (.select f)).session.currentFile = some f) := by
  cases hv : validateFile f with
  | some msg => simp [step, handleFileSelection, hv, showError, h]
  | none => simp [step, handleFileSelection, hv, processFile, h]

/-- C2 witness: the amended statement evaluated on the concrete world
reached by selecting `fA`, with `fB` as the second candidate. -/
theorem c2_witness :
    (step (reach [.select fA]) (.select fB)).pending = (reach [.select fA]).pending ∧
    (step (reach [.select fA]) (.select fB)).session.isProcessing = true ∧
    (step (reach [.select fA]) (.select fB)).session.extractedText =
      (reach [.select fA]).session.extractedText ∧
    ((validateFile fB).isSome = true →
      (step (reach [.select fA]) (.select fB)).session.currentFile =
        (reach [.select fA]).session.currentFile) ∧
    (validateFile fB = none →
      (step (reach [.select fA]) (.select fB)).session.currentFile = some fB) :=
  c2_processing_selection_no_new_attempt (reach [.select fA]) fB (by decide)

/-- C3 counterexample: after a completed extraction, selecting a second
file re-enters Processing with the previous non-empty extracted text
still stored, refuting the claimed equivalence between non-empty
`extractedText` and state Result. -/
theorem c3_nonempty_text_in_processing_state :
    stateOf (reach [.select fA, .complete "TS", .select fB]).session = .Processing ∧
    (reach [.select fA, .complete "TS", .select fB]).session.extractedText ≠ "" := by
  decide

/-- C3 (amended): `extractedText` is empty in every state reached without
a successful settlement, and whenever it is non-empty it is the mock text
of some completed attempt — but non-emptiness does not imply state
Result, since a second Processing phase keeps the previous text. -/
theorem c3_text_characterization :
    (∀ es : List Event, noComplete es = true →
        (reach es).session.extractedText = "") ∧
    (∀ es : List Event, (reach es).session.extractedText ≠ "" →
        ∃ (f : JSFile) (ts : String),
          (reach es).session.extractedText = generateMockExtractedText f.name ts) := by
  constructor
  · intro es hnc
    exact foldl_extractedText_empty es initWorld hnc rfl
  · intro es hne
    rcases reach_textShape es with h | h
    · exact absurd h hne
    · exact h

/-- C3 witness: the first part of the characterization evaluated on the
completion-free trace consisting of one selection. -/
theorem c3_witness :
    (reach [.select fA]).session.extractedText = "" :=
  c3_text_characterization.1 [.select fA] (by decide)

/-- C4 counterexample: in the simple implementation, two extract-button
clicks in rapid succession schedule two extraction timeouts — more than
one extraction attempt is in flight, and both will be honored. -/
theorem c4_two_extractions_in_flight_simple :
    ¬ (extractPDF (extractPDF (handleFileSelect fA
        { currentFile := none, pendingExtractions := 0 }))).pendingExtractions ≤ 1 := by
  decide

/-- C4 (amended): the BlockCell implementation honors at most one attempt
(`processFile` while Processing is a no-op, so no second attempt starts),
but the simple implementation has no re-entrancy guard: each click with a
stored file schedules one more extraction, so two rapid clicks put two
attempts in flight. -/
theorem c4_reentrancy_guard_only_in_blockcell :
    (∀ (w : World) (f : JSFile), w.session.isProcessing = true →
        (step w (.select f)).pending = w.pending) ∧
    (∀ s : SimpleState, s.currentFile.isSome = true →
        (extractPDF (extractPDF s)).pendingExtractions = s.pendingExtractions + 2) := by
  constructor
  · intro w f h
    cases hv : validateFile f with
    | some msg => simp [step, handleFileSelection, hv, showError]
    | none => simp [step, handleFileSelection, hv, processFile, h]
  · intro s h
    cases hc : s.currentFile with
    | none => simp [hc] at h
    | some f => simp [extractPDF, hc]

/-- C4 witness: both parts of the amended statement evaluated on concrete
states. -/
theorem c4_witness :
    (step (reach [.select fB]) (.select fA)).pending = (reach [.select fB]).pending ∧
    (extractPDF (extractPDF ({ currentFile := some fA, pendingExtractions := 0 } :
        SimpleState))).pendingExtractions = 0 + 2 :=
  ⟨c4_reentrancy_guard_only_in_blockcell.1 (reach [.select fB]) fA (by decide),
   c4_reentrancy_guard_only_in_blockcell.2 _ (by decide)⟩

/-- C5: a candidate whose MIME type is not `application/pdf` is rejected
with the (non-empty) invalid-type message; the stored file, extracted
text, processing flag and in-flight attempt are all unchanged. -/
theorem c5_invalid_type_rejected (w : World) (f : JSFile)
    (h : f.type ≠ "application/pdf") :
    (step w (.select f)).session.errorMessage = some "Please select a PDF file only." ∧
    "Please select a PDF file only." ≠ "" ∧
    (step w (.select f)).session.currentFile = w.session.currentFile ∧
    (step w (.select f)).session.extractedText = w.session.extractedText ∧
    (step w (.select f)).session.isProcessing = w.session.isProcessing ∧
    (step w (.select f)).pending = w.pending := by
  have hc : allowedTypes.contains f.type = false := by
    simp [allowedTypes]
    exact h
  have hv : validateFile f = some "Please select a PDF file only." := by
    unfold validateFile
    rw [if_pos hc]
  simp [step, handleFileSelection, hv, showError]

/-- C5 witness: the theorem evaluated at a PNG candidate in the initial
world. -/
theorem c5_witness :
    (step initWorld (.select { name := "x.png", size := 5, type := "image/png" })).session.errorMessage =
      some "Please select a PDF file only." ∧
    "Please select a PDF file only." ≠ "" ∧
    (step initWorld (.select { name := "x.png", size := 5, type := "image/png" })).session.currentFile =
      initWorld.session.currentFile ∧
    (step initWorld (.select { name := "x.png", size := 5, type := "image/png" })).session.extractedText =
      initWorld.session.extractedText ∧
    (step initWorld (.select { name := "x.png", size := 5, type := "image/png" })).session.isProcessing =
      initWorld.session.isProcessing ∧
    (step initWorld (.select { name := "x.png", size := 5, type := "image/png" })).pending =
      initWorld.pending :=
  c5_invalid_type_rejected initWorld _ (by decide)

/-- C6 counterexample: an oversized candidate whose type is not PDF gets
the invalid-type message, not the size message — the type check runs
first, so size alone does not determine the error kind. -/
theorem c6_oversized_nonpdf_gets_type_error :
    ({ name := "big.png", size := 10485761, type := "image/png" } : JSFile).size > maxFileSize ∧
    validateFile { name := "big.png", size := 10485761, type := "image/png" } =
      some "Please select a PDF file only." ∧
    "Please select a PDF file only." ≠
      "File size must be less than " ++ formatFileSize maxFileSize ++ "." := by
  decide

/-- C6 (amended): a PDF-typed candidate larger than the configured
maximum is rejected with the size message, whose reported limit is
`formatFileSize` of the configured maximum — the exact string `10 MB`
for the configured 10 MiB; the stored file is unchanged. -/
theorem c6_oversized_pdf_size_message (w : World) (f : JSFile)
    (h1 : f.type = "application/pdf") (h2 : f.size > maxFileSize) :
    (step w (.select f)).session.errorMessage =
      some ("File size must be less than " ++ formatFileSize maxFileSize ++ ".") ∧
    formatFileSize maxFileSize = "10 MB" ∧
    (step w (.select f)).session.currentFile = w.session.currentFile ∧
    (step w (.select f)).pending = w.pending := by
  have hc : allowedTypes.contains f.type = true := by
    rw [h1]; decide
  have hv : validateFile f =
      some ("File size must be less than " ++ formatFileSize maxFileSize ++ ".") := by
    unfold validateFile
    rw [if_neg (by rw [hc]; simp), if_pos h2]
  refine ⟨?_, by decide, ?_, ?_⟩ <;>
    simp [step, handleFileSelection, hv, showError]

/-- C6 witness: the theorem evaluated at an oversized PDF in the initial
world. -/
theorem c6_witness :
    (step initWorld (.select { name := "big.pdf", size := 10485761, type := "application/pdf" })).session.errorMessage =
      some ("File size must be less than " ++ formatFileSize maxFileSize ++ ".") ∧
    formatFileSize maxFileSize = "10 MB" ∧
    (step initWorld (.select { name := "big.pdf", size := 10485761, type := "application/pdf" })).session.currentFile =
      initWorld.session.currentFile ∧
    (step initWorld (.select { name := "big.pdf", size := 10485761, type := "application/pdf" })).pending =
      initWorld.pending :=
  c6_oversized_pdf_size_message initWorld _ (by decide) (by decide)

/-- C7: on a Result session holding extracted text `T` for original file
`report.pdf`, `downloadText` suggests the filename `report_extracted.txt`
and bytes that UTF-8-decode back to exactly `T`; the simple
implementation suggests the same name for this filename. -/
theorem c7_export_roundtrip (s : Session) (f : JSFile)
    (h1 : s.currentFile = some f) (h2 : f.name = "report.pdf")
    (h3 : s.extractedText = "T") :
    downloadText s = some ("report_extracted.txt", utf8Encode "T") ∧
    utf8Decode (utf8Encode "T") = some "T" ∧
    simpleDownloadName "report.pdf" = "report_extracted.txt" := by
  refine ⟨?_, by decide, by decide⟩
  have hdl : downloadText s = some (downloadName f.name, utf8Encode "T") := by
    rw [downloadText, h1, h3]
    rfl
  rw [hdl, h2]
  decide

/-- C7 witness: the round trip evaluated on a concrete Result session. -/
theorem c7_witness :
    downloadText { isProcessing := false,
                   currentFile := some { name := "report.pdf", size := 9, type := "application/pdf" },
                   extractedText := "T", errorMessage := none } =
      some ("report_extracted.txt", utf8Encode "T") ∧
    utf8Decode (utf8Encode "T") = some "T" ∧
    simpleDownloadName "report.pdf" = "report_extracted.txt" :=
  c7_export_roundtrip _ _ rfl rfl rfl

/-- C8 counterexample: in a reachable Processing state entered after an
uncleared Result, `downloadText` does produce bytes, so export is not
valid only in state Result. -/
theorem c8_bytes_produced_while_processing :
    stateOf (reach [.select fA, .complete "TS", .select fB]).session ≠ .Result ∧
    stateOf (reach [.select fA, .complete "TS", .select fB]).session = .Processing ∧
    (downloadText (reach [.select fA, .complete "TS", .select fB]).session).isSome = true := by
  decide

/-- C8 (amended): `downloadText` yields nothing exactly when the
extracted text is empty or no file is stored — a silent no-op with no
error signalled — and it can produce bytes in a reachable Processing
state that retains an earlier result. -/
theorem c8_download_guard :
    (∀ s : Session,
        downloadText s = none ↔ (s.extractedText = "" ∨ s.currentFile = none)) ∧
    stateOf (reach [.select fA, .complete "TS", .select fB]).session = .Processing ∧
    (downloadText (reach [.select fA, .complete "TS", .select fB]).session).isSome = true := by
  refine ⟨?_, by decide, by decide⟩
  intro s
  rw [downloadText]
  split
  · rename_i h
    simp [h]
  · rename_i h
    cases hc : s.currentFile with
    | none => simp
    | some f => simp [h, hc]

/-- C9 counterexample: in the reachable non-Processing session left by a
stale completion after a clear (extracted text stored, no file), the
escape key does not transition the session to Idle. -/
theorem c9_escape_not_idle_on_orphan_result :
    stateOf (reach [.select fA, .clear, .complete "TS"]).session ≠ .Processing ∧
    stateOf (handleEscapeKey (reach [.select fA, .clear, .complete "TS"]).session) ≠ .Idle := by
  decide

/-- C9 (amended): from any non-Processing session that stores a file or
has empty extracted text, escape yields the Idle session (file discarded,
error cleared); while Processing, escape only hides the error banner and
changes nothing else. -/
theorem c9_escape_behaviour :
    (∀ s : Session, s.isProcessing = false →
        (s.currentFile.isSome = true ∨ s.extractedText = "") →
        handleEscapeKey s = (⟨false, none, "", none⟩ : Session) ∧
        stateOf (handleEscapeKey s) = .Idle) ∧
    (∀ s : Session, s.isProcessing = true →
        handleEscapeKey s = { s with errorMessage := none }) := by
  constructor
  · intro s hp hor
    have heq : handleEscapeKey s = (⟨false, none, "", none⟩ : Session) := by
      cases s with
      | mk ip cf et em =>
          simp only at hp
          subst hp
          cases cf with
          | some f => simp [handleEscapeKey, hideError, clearFile]
          | none =>
              rcases hor with h | h
              · simp at h
              · simp only at h
                subst h
                simp [handleEscapeKey, hideError]
    exact ⟨heq, by rw [heq]; decide⟩
  · intro s hp
    cases s with
    | mk ip cf et em =>
        simp only at hp
        subst hp
        simp [handleEscapeKey, hideError]

/-- C9 witness: both parts evaluated on concrete sessions. -/
theorem c9_witness :
    (handleEscapeKey (⟨false, some fA, "X", some "e"⟩ : Session) =
        (⟨false, none, "", none⟩ : Session) ∧
      stateOf (handleEscapeKey (⟨false, some fA, "X", some "e"⟩ : Session)) = .Idle) ∧
    handleEscapeKey (⟨true, some fA, "", some "e"⟩ : Session) =
      { (⟨true, some fA, "", some "e"⟩ : Session) with errorMessage := none } :=
  ⟨c9_escape_behaviour.1 _ rfl (Or.inl rfl),
   c9_escape_behaviour.2 _ rfl⟩

/-- C10 counterexample: the simple implementation replaces the first
`.pdf` occurrence with `_extracted.txt` in place instead of removing it
and appending the suffix: for `a.pdfb.pdf` it suggests
`a_extracted.txtb.pdf`, and a name without `.pdf` gets no suffix. -/
theorem c10_simple_impl_replaces_in_place :
    simpleDownloadName "a.pdfb.pdf" = "a_extracted.txtb.pdf" ∧
    "a_extracted.txtb.pdf" ≠ "ab.pdf_extracted.txt" ∧
    simpleDownloadName "noext" = "noext" := by
  decide

/-- C10 (amended): in the BlockCell implementation the suggested filename
is the original name with the first `.pdf` occurrence removed and
`_extracted.txt` appended — the suffix is appended unchanged when `.pdf`
never occurs, and `a.pdfb.pdf` yields `ab.pdf_extracted.txt`. -/
theorem c10_download_filename :
    (∀ name : String, occursInList (String.data ".pdf") name.data = false →
        downloadName name = name ++ "_extracted.txt") ∧
    (∀ p q : String,
        (∀ i, i < p.data.length →
          (String.data ".pdf").isPrefixOf
            ((p.data ++ String.data ".pdf" ++ q.data).drop i) = false) →
        downloadName (p ++ ".pdf" ++ q) = p ++ q ++ "_extracted.txt") ∧
    downloadName "a.pdfb.pdf" = "ab.pdf_extracted.txt" := by
  refine ⟨?_, ?_, by decide⟩
  · intro name h
    unfold downloadName jsReplaceFirst
    rw [replaceFirstList_not_occurs _ _ _ h]
  · intro p q h
    unfold downloadName jsReplaceFirst
    have hd : (p ++ ".pdf" ++ q).data = p.data ++ String.data ".pdf" ++ q.data := by
      rw [String.data_append, String.data_append]
    rw [hd, replaceFirstList_at_first _ _ _ (by decide) _ h]
    rw [show (String.data "") = ([] : List Char) from rfl, List.append_nil]
    rfl

/-- C10 witness: the first-occurrence case evaluated at the split
`report` / empty tail of `report.pdf`. -/
theorem c10_witness :
    downloadName ("report" ++ ".pdf" ++ "") = "report" ++ "" ++ "_extracted.txt" :=
  c10_download_filename.2.1 "report" "" (by decide)

end PDFX
